import Mathlib

/-!
Shallow embedding of the photo-gallery admin client (src/unnamed/part_000,
src/types.ts, src/App.tsx) and proofs about it.  The second document of
src/unnamed/part_000 (the admin pages with the multi-file upload queue) is the
one the claims point at; definitions below cite its line numbers.

Backend (supabase SDK) results are passed to each handler as explicit outcome
parameters: `none` models a call that returned without error, `some msg` a
call that returned an error whose `message` is `msg`.  Each handler also
returns the list of SDK calls it issued, paired with that call's outcome.
-/

namespace Galeri

/-! ## Kernel-computable models of the JavaScript string operations the code
uses.  Lean's own String.startsWith and String.splitOn are compiled
primitives that the kernel cannot evaluate, so the embedding uses these
structurally recursive versions over the character lists instead. -/

/-- Whether the first list is a prefix of the second. -/
def charsPrefix : List Char → List Char → Bool
  | [], _ => true
  | _ :: _, [] => false
  | c :: cs, d :: ds => decide (c = d) && charsPrefix cs ds

/-- Model of JavaScript String.prototype.startsWith. -/
def jsStartsWith (s p : String) : Bool := charsPrefix p.data s.data

/-- Drops the first list from the front of the second, or fails. -/
def afterDrop : List Char → List Char → Option (List Char)
  | [], s => some s
  | _ :: _, [] => none
  | c :: cs, d :: ds => if c = d then afterDrop cs ds else none

/-- Scanner of jsSplit: splits at each leftmost non-overlapping occurrence of
`sep`.  The fuel argument (initially the input length) only makes the
recursion structural; it never runs out for a non-empty separator. -/
def splitGo (sep : List Char) : Nat → List Char → List Char → List (List Char)
  | _, [], acc => [acc.reverse]
  | 0, _ :: _, acc => [acc.reverse]
  | fuel + 1, c :: cs, acc =>
    match afterDrop sep (c :: cs) with
    | some rest => acc.reverse :: splitGo sep fuel rest []
    | none => splitGo sep fuel cs (c :: acc)

/-- Model of JavaScript String.prototype.split with a non-empty string
separator; it never returns an empty list. -/
def jsSplit (sep s : String) : List String :=
  (splitGo sep.data s.data.length s.data []).map fun cs => ⟨cs⟩

/-- Fields of a DOM File object that the code reads (name, MIME type, byte size). -/
structure File where
  name : String
  type : String
  size : Nat
  deriving DecidableEq

/-- Status union of an upload-queue entry (src/unnamed/part_000, line 457). -/
inductive UploadStatus where
  | queued
  | uploading
  | success
  | error
  deriving DecidableEq

/-- UploadableFile (src/unnamed/part_000, lines 453-459). -/
structure UploadableFile where
  id : String
  file : File
  previewUrl : String
  status : UploadStatus
  error : Option String
  deriving DecidableEq

/-- Toast type union (src/types.ts, ToastMessage). -/
inductive ToastType where
  | success
  | error
  | info
  deriving DecidableEq

/-- Content of one toast added by addToast (src/App.tsx, lines 57-63); the
numeric id and the auto-dismiss timer are irrelevant to the claims. -/
structure Toast where
  message : String
  type : ToastType
  deriving DecidableEq

/-- Photo row (src/types.ts). -/
structure Photo where
  id : String
  album_id : String
  image_url : String
  caption : Option String
  created_at : String
  deriving DecidableEq

/-- Album row (src/types.ts). -/
structure Album where
  id : String
  title : String
  description : Option String
  cover_image_url : Option String
  created_at : String
  photo_count : Option Nat
  deriving DecidableEq

/-- One call into the supabase client SDK, tagged with the payload data the
claims talk about. -/
inductive SdkCall where
  | authSignIn
  | authSignOut
  | albumsInsert
  | albumsUpdateMeta
  | albumsSetCover (value : Option String)
  | albumsDelete (albumId : String)
  | albumsRpc
  | photosSelect (albumId : String)
  | photosInsert
  | photosUpdate (photoId : String)
  | photosDelete (photoId : String)
  | photosCount
  | storageUpload (entryId : String)
  | storageGetPublicUrl
  | storageRemove (paths : List String)
  deriving DecidableEq

/-! ## The upload queue (AdminAlbumEditorPage, second document) -/

/-- Validation and queueing of one selected file: the body of the map callback
in handleFileSelect (src/unnamed/part_000, lines 769-784).  `freshId` stands
for the crypto.randomUUID() result and `newUrl` for URL.createObjectURL(file).
Returns the new queue entry (when the file passed validation) together with
the toasts added for this file. -/
def handleFileSelectOne (freshId newUrl : String) (file : File) :
    Option UploadableFile × List Toast :=
  if ¬ jsStartsWith file.type "image/" then
    (none, [⟨"File " ++ file.name ++ " bukan gambar.", ToastType.error⟩])
  else if file.size > 5 * 1024 * 1024 then
    (none, [⟨"File " ++ file.name ++ " terlalu besar (> 5MB).", ToastType.error⟩])
  else
    (some ⟨freshId, file, newUrl, UploadStatus.queued, none⟩, [])

/-- The map-then-filter over the selected file list inside handleFileSelect;
`fresh j` supplies the uuid and object URL generated for the j-th file. -/
def processFiles (fresh : Nat → String × String) : Nat → List File →
    List UploadableFile × List Toast
  | _, [] => ([], [])
  | j, f :: fs =>
    let one := handleFileSelectOne (fresh j).1 (fresh j).2 f
    let rest := processFiles fresh (j + 1) fs
    (one.1.toList ++ rest.1, one.2 ++ rest.2)

/-- handleFileSelect (src/unnamed/part_000, lines 765-788): validates the
selected files, appends the entries of the valid ones to the queue and
returns the toasts added. -/
def handleFileSelect (fresh : Nat → String × String) (files : List File)
    (queue : List UploadableFile) : List UploadableFile × List Toast :=
  let r := processFiles fresh 0 files
  (queue ++ r.1, r.2)

/-- removeFileFromQueue (src/unnamed/part_000, lines 790-798): revokes the
preview URL of the entry with the given id (second component: the list of
URLs revoked by this call) and filters the entry out of the queue. -/
def removeFileFromQueue (id0 : String) (queue : List UploadableFile) :
    List UploadableFile × List String :=
  (queue.filter fun f => decide (f.id ≠ id0),
   ((queue.find? fun f => decide (f.id = id0)).map fun f => f.previewUrl).toList)

/-- Cleanup function of the useEffect at src/unnamed/part_000, lines 726-730.
The effect's dependency array is `[filesToUpload]`, so per React semantics
this cleanup runs with the PREVIOUS queue value every time the queue value
changes, and once more at unmount; it revokes the preview URL of every entry
of that previous value. -/
def effectCleanupRevocations (prevQueue : List UploadableFile) : List String :=
  prevQueue.map fun f => f.previewUrl

/-- Backend outcome for one queue entry processed by handleUploadAll: the
storage upload errors, the photos insert errors, or both calls succeed. -/
inductive UploadOutcome where
  | ok
  | uploadErr (msg : String)
  | insertErr (msg : String)
  deriving DecidableEq

/-- The updater of the setFilesToUpload call at line 810: every queued entry
becomes uploading. -/
def markUploadingFn (f : UploadableFile) : UploadableFile :=
  if f.status = UploadStatus.queued then { f with status := UploadStatus.uploading } else f

/-- The updater of the setFilesToUpload call at line 827: the entry with the
given id becomes success. -/
def setSuccess (id0 : String) (f : UploadableFile) : UploadableFile :=
  if f.id = id0 then { f with status := UploadStatus.success } else f

/-- The updater of the setFilesToUpload call at line 831: the entry with the
given id becomes error, recording the failure message. -/
def setError (id0 msg : String) (f : UploadableFile) : UploadableFile :=
  if f.id = id0 then { f with status := UploadStatus.error, error := some msg } else f

/-- Entry contents after its upload finished with the given outcome. -/
def finalize (o : UploadOutcome) (f : UploadableFile) : UploadableFile :=
  match o with
  | .ok => { f with status := UploadStatus.success }
  | .uploadErr m => { f with status := UploadStatus.error, error := some m }
  | .insertErr m => { f with status := UploadStatus.error, error := some m }

/-- SDK calls made for one processed entry (loop body, lines 815-833): the
storage upload always happens; the public-URL lookup and the photos insert
happen only when the upload did not throw. -/
def callsFor (o : UploadOutcome) (entryId : String) : List (SdkCall × Option String) :=
  match o with
  | .uploadErr m => [(SdkCall.storageUpload entryId, some m)]
  | .insertErr m => [(SdkCall.storageUpload entryId, none), (SdkCall.storageGetPublicUrl, none),
      (SdkCall.photosInsert, some m)]
  | .ok => [(SdkCall.storageUpload entryId, none), (SdkCall.storageGetPublicUrl, none),
      (SdkCall.photosInsert, none)]

/-- One iteration of the upload loop (lines 815-833) acting on the queue. -/
def processFileUpload (backend : String → UploadOutcome) (q : List UploadableFile)
    (uf : UploadableFile) : List UploadableFile × List (SdkCall × Option String) × Bool :=
  match backend uf.id with
  | .ok => (q.map (setSuccess uf.id), callsFor .ok uf.id, true)
  | .uploadErr m => (q.map (setError uf.id m), callsFor (.uploadErr m) uf.id, false)
  | .insertErr m => (q.map (setError uf.id m), callsFor (.insertErr m) uf.id, false)

/-- Accumulated state of a handleUploadAll run: the queue, the SDK calls made
and the success and error counters. -/
structure RunState where
  queue : List UploadableFile
  calls : List (SdkCall × Option String)
  successCount : Nat
  errorCount : Nat
  deriving DecidableEq

/-- The for-loop of handleUploadAll over the captured filesToProcess list. -/
def runQueue (backend : String → UploadOutcome) :
    List UploadableFile → List UploadableFile → RunState
  | q, [] => ⟨q, [], 0, 0⟩
  | q, uf :: rest =>
    let p := processFileUpload backend q uf
    let r := runQueue backend p.1 rest
    ⟨r.queue, p.2.1 ++ r.calls,
     (if p.2.2 then 1 else 0) + r.successCount,
     (if p.2.2 then 0 else 1) + r.errorCount⟩

/-- Result of a handleUploadAll run: the queue right after the loop, the queue
after the delayed cleanup of successful entries (the setTimeout at lines
843-845), the toasts added and the SDK calls made. -/
structure UploadAllResult where
  queue : List UploadableFile
  queueAfterTimeout : List UploadableFile
  toasts : List Toast
  calls : List (SdkCall × Option String)
  deriving DecidableEq

/-- handleUploadAll (src/unnamed/part_000, lines 800-846). -/
def handleUploadAll (backend : String → UploadOutcome) (albumId : Option String)
    (q : List UploadableFile) : UploadAllResult :=
  match albumId with
  | none => ⟨q, q, [], []⟩
  | some _ =>
    let filesToProcess := q.filter fun f => decide (f.status = UploadStatus.queued)
    if filesToProcess.isEmpty then
      ⟨q, q, [⟨"Tidak ada foto dalam antrean.", ToastType.info⟩], []⟩
    else
      let q1 := q.map markUploadingFn
      let r := runQueue backend q1 filesToProcess
      let toasts :=
        (if r.successCount > 0 then
          [⟨toString r.successCount ++ " foto berhasil diunggah.", ToastType.success⟩] else [])
        ++ (if r.errorCount > 0 then
          [⟨toString r.errorCount ++ " foto gagal diunggah.", ToastType.error⟩] else [])
      ⟨r.queue, r.queue.filter fun f => decide (f.status ≠ UploadStatus.success), toasts, r.calls⟩

/-! ## The other admin handlers -/

/-- handleLogin (src/unnamed/part_000, lines 516-527), toasts and SDK calls only. -/
def handleLogin (outcome : Option String) : List Toast × List (SdkCall × Option String) :=
  match outcome with
  | some m => ([⟨m, ToastType.error⟩], [(SdkCall.authSignIn, some m)])
  | none => ([⟨"Login berhasil!", ToastType.success⟩], [(SdkCall.authSignIn, none)])

/-- handleLogout (src/unnamed/part_000, lines 467-475). -/
def handleLogout (outcome : Option String) : List Toast × List (SdkCall × Option String) :=
  match outcome with
  | some m => ([⟨"Gagal logout: " ++ m, ToastType.error⟩], [(SdkCall.authSignOut, some m)])
  | none => ([⟨"Anda berhasil logout.", ToastType.success⟩], [(SdkCall.authSignOut, none)])

/-- handleAlbumSave (src/unnamed/part_000, lines 732-763).  `captionIds` are
the keys of the captions record; `captionOutcome` gives the per-photo result
of the caption update calls. -/
def handleAlbumSave (isNew : Bool) (title _description : String) (captionIds : List String)
    (albumOutcome : Option String) (captionOutcome : String → Option String) :
    List Toast × List (SdkCall × Option String) :=
  if title = "" then
    ([⟨"Judul album tidak boleh kosong.", ToastType.error⟩], [])
  else if isNew then
    match albumOutcome with
    | some m => ([⟨"Gagal membuat album: " ++ m, ToastType.error⟩], [(SdkCall.albumsInsert, some m)])
    | none => ([⟨"Album berhasil dibuat.", ToastType.success⟩], [(SdkCall.albumsInsert, none)])
  else
    let calls := (SdkCall.albumsUpdateMeta, albumOutcome)
      :: captionIds.map fun cid => (SdkCall.photosUpdate cid, captionOutcome cid)
    if albumOutcome.isSome || captionIds.any fun cid => (captionOutcome cid).isSome then
      ([⟨"Gagal menyimpan perubahan.", ToastType.error⟩], calls)
    else
      ([⟨"Perubahan berhasil disimpan.", ToastType.success⟩], calls)

/-- handleSetCover (src/unnamed/part_000, lines 890-898): returns the local
album state after the call, the toasts and the SDK calls. -/
def handleSetCover (album : Album) (photoUrl : String) (outcome : Option String) :
    Album × List Toast × List (SdkCall × Option String) :=
  match outcome with
  | some m => (album, [⟨"Gagal mengatur foto sampul: " ++ m, ToastType.error⟩],
      [(SdkCall.albumsSetCover (some photoUrl), some m)])
  | none => ({ album with cover_image_url := some photoUrl },
      [⟨"Foto sampul berhasil diperbarui.", ToastType.success⟩],
      [(SdkCall.albumsSetCover (some photoUrl), none)])

/-- The expression image_url.split(the gallery separator).pop() used by
handleDeletePhoto (line 865) and handleDelete (line 604).  jsSplit
never returns an empty list, so pop() is its last piece (getLastD); JavaScript treats
the empty string as falsy. -/
def lastGallerySegment (url : String) : String :=
  (jsSplit "/gallery/" url).getLastD ""

/-- filePaths computed by handleDelete (line 604): the last gallery segment of
each photo URL, with falsy (empty) strings filtered out. -/
def derivedPaths (photos : List Photo) : List String :=
  (photos.map fun p => lastGallerySegment p.image_url).filter fun s => decide (s ≠ "")

/-- Toasts plus SDK calls of a deletion handler run. -/
structure HandlerResult where
  toasts : List Toast
  calls : List (SdkCall × Option String)
  deriving DecidableEq

/-- handleDeletePhoto (src/unnamed/part_000, lines 863-888).  `albumCover` is
the cover_image_url of the local album state; `coverOutcome` is the result of
the cover-reset update, which the code never inspects. -/
def handleDeletePhoto (confirmed : Bool) (albumCover : Option String) (photo : Photo)
    (storageOutcome dbOutcome coverOutcome : Option String) : HandlerResult :=
  if confirmed then
    let filePath := lastGallerySegment photo.image_url
    if filePath = "" then ⟨[⟨"URL foto tidak valid.", ToastType.error⟩], []⟩
    else
      match storageOutcome with
      | some m => ⟨[⟨"Gagal menghapus file dari storage: " ++ m, ToastType.error⟩],
          [(SdkCall.storageRemove [filePath], some m)]⟩
      | none =>
        match dbOutcome with
        | some m => ⟨[⟨"Gagal menghapus data foto: " ++ m, ToastType.error⟩],
            [(SdkCall.storageRemove [filePath], none), (SdkCall.photosDelete photo.id, some m)]⟩
        | none =>
          if albumCover = some photo.image_url then
            ⟨[⟨"Foto berhasil dihapus.", ToastType.success⟩],
             [(SdkCall.storageRemove [filePath], none), (SdkCall.photosDelete photo.id, none),
              (SdkCall.albumsSetCover none, coverOutcome)]⟩
          else
            ⟨[⟨"Foto berhasil dihapus.", ToastType.success⟩],
             [(SdkCall.storageRemove [filePath], none), (SdkCall.photosDelete photo.id, none)]⟩
  else ⟨[], []⟩

/-- handleDelete on the dashboard (src/unnamed/part_000, lines 593-622):
album deletion.  `fetchResult` is the photo-list select result. -/
def handleDelete (confirmed : Bool) (albumId albumTitle : String)
    (fetchResult : Except String (List Photo)) (storageOutcome dbOutcome : Option String) :
    HandlerResult :=
  if confirmed then
    match fetchResult with
    | .error m => ⟨[⟨"Gagal mendapatkan daftar foto: " ++ m, ToastType.error⟩],
        [(SdkCall.photosSelect albumId, some m)]⟩
    | .ok photos =>
      let storagePart : List Toast × List (SdkCall × Option String) :=
        if photos.length > 0 then
          if (derivedPaths photos).length > 0 then
            match storageOutcome with
            | some m => ([⟨"Gagal menghapus beberapa file: " ++ m, ToastType.error⟩],
                [(SdkCall.storageRemove (derivedPaths photos), some m)])
            | none => ([], [(SdkCall.storageRemove (derivedPaths photos), none)])
          else ([], [])
        else ([], [])
      let dbPart : List Toast × List (SdkCall × Option String) :=
        match dbOutcome with
        | some m => ([⟨"Gagal menghapus album: " ++ m, ToastType.error⟩],
            [(SdkCall.albumsDelete albumId, some m)])
        | none => ([⟨"Album \"" ++ albumTitle ++ "\" berhasil dihapus.", ToastType.success⟩],
            [(SdkCall.albumsDelete albumId, none)])
      ⟨storagePart.1 ++ dbPart.1, ((SdkCall.photosSelect albumId, none) :: storagePart.2) ++ dbPart.2⟩
  else ⟨[], []⟩

/-- fetchAlbumsAndStats on the dashboard (lines 560-587): the SDK calls made
(the albums rpc and the exact photo count). -/
def fetchAlbumsAndStats (rpcOutcome countOutcome : Option String) :
    List (SdkCall × Option String) :=
  [(SdkCall.albumsRpc, rpcOutcome), (SdkCall.photosCount, countOutcome)]

/-! ## The public lightbox (src/types.ts, second document) -/

/-- goToPrevious (src/types.ts second document, lines 69-71). -/
def goToPrevious (photos : List Photo) (prevIndex : Nat) : Nat :=
  if prevIndex = 0 then photos.length - 1 else prevIndex - 1

/-- goToNext (src/types.ts second document, lines 73-75). -/
def goToNext (photos : List Photo) (prevIndex : Nat) : Nat :=
  if prevIndex = photos.length - 1 then 0 else prevIndex + 1

/-! ## Spec-side helpers (used only in claim statements) -/

/-- Client-side validity check of a selected file, as the spec words it: the
MIME type starts with image/ and the size is at most 5*1024*1024 bytes. -/
def fileValid (f : File) : Bool :=
  jsStartsWith f.type "image/" && decide (f.size ≤ 5 * 1024 * 1024)

/-- The single error toast handleFileSelect produces for an invalid file. -/
def invalidToast (f : File) : Toast :=
  if ¬ jsStartsWith f.type "image/" then ⟨"File " ++ f.name ++ " bukan gambar.", ToastType.error⟩
  else ⟨"File " ++ f.name ++ " terlalu besar (> 5MB).", ToastType.error⟩

/-- Whether the toast list contains a toast of the given type. -/
def hasToast (ts : List Toast) (ty : ToastType) : Bool :=
  ts.any fun t => decide (t.type = ty)

/-- Whether every SDK call of the run returned without error. -/
def callsOk (cs : List (SdkCall × Option String)) : Bool :=
  cs.all fun c => decide (c.2 = none)

/-- Entry id carried by a storage-upload call. -/
def uploadCallId (c : SdkCall × Option String) : Option String :=
  match c.1 with
  | SdkCall.storageUpload i => some i
  | _ => none

/-! ## Claim C1: client-side validation in handleFileSelect -/

lemma processFiles_entries (fresh : Nat → String × String) (j : Nat) (files : List File) :
    (processFiles fresh j files).1.map (fun e => (e.file, e.status, e.error))
      = (files.filter fileValid).map fun f => (f, UploadStatus.queued, (none : Option String)) := by
  induction files generalizing j with
  | nil => simp [processFiles]
  | cons f fs ih =>
    simp only [processFiles, handleFileSelectOne, List.filter_cons]
    by_cases h1 : jsStartsWith f.type "image/"
    · by_cases h2 : f.size > 5 * 1024 * 1024
      · have hv : fileValid f = false := by
          simp [fileValid, h1, Nat.not_le.mpr h2]
        simp [h1, h2, hv, ih]
      · have hv : fileValid f = true := by
          simp [fileValid, h1, Nat.not_lt.mp h2]
        simp [h1, h2, hv, ih]
    · have hv : fileValid f = false := by simp [fileValid, h1]
      simp [h1, hv, ih]

lemma processFiles_toasts (fresh : Nat → String × String) (j : Nat) (files : List File) :
    (processFiles fresh j files).2 = (files.filter fun f => ! fileValid f).map invalidToast := by
  induction files generalizing j with
  | nil => simp [processFiles]
  | cons f fs ih =>
    simp only [processFiles, handleFileSelectOne, List.filter_cons]
    by_cases h1 : jsStartsWith f.type "image/"
    · by_cases h2 : f.size > 5 * 1024 * 1024
      · have hv : fileValid f = false := by
          simp [fileValid, h1, Nat.not_le.mpr h2]
        simp [h1, h2, hv, ih, invalidToast]
      · have hv : fileValid f = true := by
          simp [fileValid, h1, Nat.not_lt.mp h2]
        simp [h1, h2, hv, ih]
    · have hv : fileValid f = false := by simp [fileValid, h1]
      simp [h1, hv, ih, invalidToast]

/-- C1: every file handed to handleFileSelect is appended to the upload queue,
with status queued and an empty error field, exactly when its MIME type starts
with image/ and its size is at most 5*1024*1024 bytes; the new entries go
after the existing queue, and each failing file is not enqueued and produces
exactly one error toast whose message names the file. -/
theorem c1_file_select_validation (fresh : Nat → String × String) (files : List File)
    (queue : List UploadableFile) :
    (handleFileSelect fresh files queue).1 = queue ++ (processFiles fresh 0 files).1
    ∧ (processFiles fresh 0 files).1.map (fun e => (e.file, e.status, e.error))
        = (files.filter fileValid).map (fun f => (f, UploadStatus.queued, (none : Option String)))
    ∧ (handleFileSelect fresh files queue).2
        = (files.filter fun f => ! fileValid f).map invalidToast
    ∧ (∀ f : File, fileValid f = (jsStartsWith f.type "image/" && decide (f.size ≤ 5 * 1024 * 1024)))
    ∧ (∀ f : File, (invalidToast f).type = ToastType.error
        ∧ ((invalidToast f).message = "File " ++ f.name ++ " bukan gambar."
           ∨ (invalidToast f).message = "File " ++ f.name ++ " terlalu besar (> 5MB).")) := by
  refine ⟨rfl, processFiles_entries fresh 0 files, processFiles_toasts fresh 0 files,
    fun f => rfl, fun f => ?_⟩
  unfold invalidToast
  by_cases h1 : jsStartsWith f.type "image/" <;> simp [h1]

/-! ## Claim C9: lightbox navigation -/

/-- C9: for a non-empty photo list and an in-range lightbox index, goToNext
and goToPrevious stay within the range 0 to length-1 and are mutually
inverse, wrapping around at both ends. -/
theorem c9_lightbox_nav (photos : List Photo) (i : Nat)
    (h0 : 0 < photos.length) (hi : i < photos.length) :
    goToNext photos i < photos.length ∧ goToPrevious photos i < photos.length
    ∧ goToPrevious photos (goToNext photos i) = i
    ∧ goToNext photos (goToPrevious photos i) = i := by
  unfold goToNext goToPrevious
  split_ifs <;> first
  | exact absurd rfl (by assumption)
  | exact (by assumption : False).elim
  | omega

/-- Witness for C9 at a concrete one-photo list and index 0. -/
theorem c9_lightbox_nav_witness :
    goToPrevious [(⟨"p1", "a1", "u", none, "t"⟩ : Photo)]
        (goToNext [(⟨"p1", "a1", "u", none, "t"⟩ : Photo)] 0) = 0 :=
  (c9_lightbox_nav [⟨"p1", "a1", "u", none, "t"⟩] 0 (by decide) (by decide)).2.2.1

/-! ## Claim C8: setting the cover image -/

/-- C8: handleSetCover on backend success sets exactly the cover_image_url
field of the local album state to the chosen photo URL and adds a success
toast; on backend error it leaves the album state unchanged and adds an error
toast.  Either way it issues the single albums update call. -/
theorem c8_set_cover (album : Album) (photoUrl : String) (outcome : Option String) :
    (outcome = none →
      (handleSetCover album photoUrl outcome).1 = { album with cover_image_url := some photoUrl }
      ∧ (handleSetCover album photoUrl outcome).2.1
          = [⟨"Foto sampul berhasil diperbarui.", ToastType.success⟩]
      ∧ (handleSetCover album photoUrl outcome).2.2
          = [(SdkCall.albumsSetCover (some photoUrl), none)])
    ∧ (∀ m, outcome = some m →
      (handleSetCover album photoUrl outcome).1 = album
      ∧ (handleSetCover album photoUrl outcome).2.1
          = [⟨"Gagal mengatur foto sampul: " ++ m, ToastType.error⟩]
      ∧ (handleSetCover album photoUrl outcome).2.2
          = [(SdkCall.albumsSetCover (some photoUrl), some m)]) := by
  cases outcome <;> simp [handleSetCover]

/-- Witness for C8 at a concrete album and a successful call. -/
theorem c8_set_cover_witness :
    (handleSetCover ⟨"a1", "T", none, none, "t", none⟩ "u" none).1
      = { (⟨"a1", "T", none, none, "t", none⟩ : Album) with cover_image_url := some "u" } :=
  ((c8_set_cover ⟨"a1", "T", none, none, "t", none⟩ "u" none).1 rfl).1

/-! ## Claim C4: preview object-URL lifecycle (code bug) -/

/-- Queue after enqueueing the valid file a.png into the empty queue. -/
def queueA : List UploadableFile :=
  (handleFileSelect (fun _ => ("id0", "url0")) [⟨"a.png", "image/png", 100⟩] []).1

/-- Queue after additionally enqueueing the valid file b.png. -/
def queueAB : List UploadableFile :=
  (handleFileSelect (fun _ => ("id1", "url1")) [⟨"b.png", "image/png", 100⟩] queueA).1

/-- C4 fails on the code: the cleanup useEffect (src/unnamed/part_000, lines
726-730) lists filesToUpload in its dependency array, so React runs its
cleanup on EVERY queue change, not only when a file's lifecycle ends.
Concretely: after enqueueing a.png (queueA) and then b.png (queueAB), the
cleanup run for the change from queueA to queueAB revokes a.png's preview URL
url0 although a.png is still queued in queueAB; and removing a.png from
queueAB revokes url0 once in removeFileFromQueue and once more in the cleanup
run for that change, so url0 is not revoked exactly once. -/
theorem c4_premature_revocation :
    ("url0" ∈ effectCleanupRevocations queueA
      ∧ ∃ e ∈ queueAB, e.previewUrl = "url0" ∧ e.status = UploadStatus.queued)
    ∧ ("url0" ∈ (removeFileFromQueue "id0" queueAB).2
      ∧ "url0" ∈ effectCleanupRevocations queueAB) := by
  decide

/-! ## Claim C7: album deletion -/

lemma handleDelete_calls_ok (albumId albumTitle : String) (photos : List Photo)
    (so dbo : Option String) :
    (handleDelete true albumId albumTitle (Except.ok photos) so dbo).calls
      = ((SdkCall.photosSelect albumId, none)
          :: (if derivedPaths photos ≠ [] then
                [(SdkCall.storageRemove (derivedPaths photos), so)] else []))
        ++ [(SdkCall.albumsDelete albumId, dbo)] := by
  unfold handleDelete
  cases photos with
  | nil => cases dbo <;> simp [derivedPaths]
  | cons p ps =>
    by_cases hd : derivedPaths (p :: ps) = []
    · cases so <;> cases dbo <;> simp [hd]
    · have hl : 0 < (derivedPaths (p :: ps)).length := List.length_pos.mpr hd
      cases so <;> cases dbo <;> simp [hd, hl]

/-- C7: on a confirmed album deletion with a successful photo-list fetch the
client removes from object storage exactly the file paths derived from the
photos' image URLs (one batched call, skipped when no non-empty path remains),
then deletes the album row; it never issues a photo-row delete itself, and
when the photo-list fetch fails it issues no deletion call at all. -/
theorem c7_album_delete (albumId albumTitle : String) (photos : List Photo)
    (so dbo : Option String) :
    ((handleDelete true albumId albumTitle (Except.ok photos) so dbo).calls
      = ((SdkCall.photosSelect albumId, none)
          :: (if derivedPaths photos ≠ [] then
                [(SdkCall.storageRemove (derivedPaths photos), so)] else []))
        ++ [(SdkCall.albumsDelete albumId, dbo)])
    ∧ (∀ c ∈ (handleDelete true albumId albumTitle (Except.ok photos) so dbo).calls,
        ∀ pid, c.1 ≠ SdkCall.photosDelete pid)
    ∧ (∀ c ∈ (handleDelete true albumId albumTitle (Except.ok photos) so dbo).calls,
        ∀ ps, c.1 = SdkCall.storageRemove ps → ps = derivedPaths photos)
    ∧ (∀ m, (handleDelete true albumId albumTitle (Except.error m) so dbo).calls
        = [(SdkCall.photosSelect albumId, some m)]) := by
  refine ⟨handleDelete_calls_ok albumId albumTitle photos so dbo, ?_, ?_, ?_⟩
  · intro c hc pid
    rw [handleDelete_calls_ok] at hc
    by_cases hd : derivedPaths photos ≠ [] <;>
      simp [hd] at hc <;>
      rcases hc with h | h | h <;> (try subst h) <;> simp_all
  · intro c hc ps hps
    rw [handleDelete_calls_ok] at hc
    by_cases hd : derivedPaths photos ≠ [] <;>
      simp [hd] at hc <;>
      rcases hc with h | h | h <;> (try subst h) <;> simp_all
  · intro m
    simp [handleDelete]

/-- Witness for C7 at a concrete confirmed run with one photo. -/
theorem c7_album_delete_witness :
    (handleDelete true "a1" "T" (Except.ok [⟨"p1", "a1", "h/gallery/f.jpg", none, "t"⟩])
        none none).calls
      = ((SdkCall.photosSelect "a1", none)
          :: (if derivedPaths [⟨"p1", "a1", "h/gallery/f.jpg", none, "t"⟩] ≠ [] then
                [(SdkCall.storageRemove
                    (derivedPaths [⟨"p1", "a1", "h/gallery/f.jpg", none, "t"⟩]), none)] else []))
        ++ [(SdkCall.albumsDelete "a1", none)] :=
  (c7_album_delete "a1" "T" [⟨"p1", "a1", "h/gallery/f.jpg", none, "t"⟩] none none).1

/-! ## Claim C10: cover reset after deleting a photo -/

/-- C10: after a confirmed photo deletion whose storage removal and row delete
both succeed, the client issues an albums update setting cover_image_url to
null exactly when the deleted photo's image URL equals the local album
state's cover URL (the update's own outcome is never inspected); otherwise it
issues no albums-table call at all, so the album row is untouched. -/
theorem c10_cover_reset (albumCover : Option String) (photo : Photo) (cvo : Option String)
    (hpath : ¬ lastGallerySegment photo.image_url = "") :
    (albumCover = some photo.image_url →
      (handleDeletePhoto true albumCover photo none none cvo).calls
        = [(SdkCall.storageRemove [lastGallerySegment photo.image_url], none),
           (SdkCall.photosDelete photo.id, none), (SdkCall.albumsSetCover none, cvo)])
    ∧ (albumCover ≠ some photo.image_url →
      (handleDeletePhoto true albumCover photo none none cvo).calls
        = [(SdkCall.storageRemove [lastGallerySegment photo.image_url], none),
           (SdkCall.photosDelete photo.id, none)]
      ∧ ∀ c ∈ (handleDeletePhoto true albumCover photo none none cvo).calls,
          (∀ v, c.1 ≠ SdkCall.albumsSetCover v) ∧ c.1 ≠ SdkCall.albumsUpdateMeta
          ∧ (∀ i, c.1 ≠ SdkCall.albumsDelete i) ∧ c.1 ≠ SdkCall.albumsInsert) := by
  constructor
  · intro hc
    simp [handleDeletePhoto, hpath, hc]
  · intro hc
    constructor
    · simp [handleDeletePhoto, hpath, hc]
    · intro c hc'
      simp [handleDeletePhoto, hpath, hc] at hc'
      rcases hc' with h | h <;> subst h <;> simp

/-- Witness for C10 at a concrete run where the deleted photo is the cover. -/
theorem c10_cover_reset_witness :
    (handleDeletePhoto true (some "h/gallery/f.jpg") ⟨"p1", "a1", "h/gallery/f.jpg", none, "t"⟩
        none none (some "ignored")).calls
      = [(SdkCall.storageRemove [lastGallerySegment "h/gallery/f.jpg"], none),
         (SdkCall.photosDelete "p1", none), (SdkCall.albumsSetCover none, some "ignored")] :=
  (c10_cover_reset (some "h/gallery/f.jpg") ⟨"p1", "a1", "h/gallery/f.jpg", none, "t"⟩
    (some "ignored") (by decide)).1 rfl

/-! ## Claim C3: handleUploadAll -/

lemma markUploadingFn_id (f : UploadableFile) : (markUploadingFn f).id = f.id := by
  unfold markUploadingFn; split <;> rfl

lemma finalize_id (o : UploadOutcome) (f : UploadableFile) : (finalize o f).id = f.id := by
  cases o <;> rfl

/-- Characterization of the upload loop: with pairwise-distinct entry ids in
the work list, the final queue is a pointwise update of the starting queue. -/
lemma runQueue_queue (backend : String → UploadOutcome) (todo : List UploadableFile)
    (q : List UploadableFile) (hnd : (todo.map fun f => f.id).Nodup) :
    (runQueue backend q todo).queue
      = q.map fun f =>
          if f.id ∈ todo.map (fun t => t.id) then finalize (backend f.id) f else f := by
  induction todo generalizing q with
  | nil => simp [runQueue]
  | cons uf rest ih =>
    simp only [List.map_cons, List.nodup_cons] at hnd
    obtain ⟨hni, hnd'⟩ := hnd
    show (runQueue backend (processFileUpload backend q uf).1 rest).queue = _
    rw [ih _ hnd']
    cases hb : backend uf.id with
    | ok =>
      simp only [processFileUpload, hb, List.map_map]
      refine List.map_congr_left fun a _ => ?_
      by_cases hid : a.id = uf.id
      · have h1 : setSuccess uf.id a = { a with status := UploadStatus.success } := by
          simp [setSuccess, hid]
        simp [Function.comp, h1, hid, hni, hb, finalize]
      · have h1 : setSuccess uf.id a = a := by simp [setSuccess, hid]
        simp [Function.comp, h1, hid]
    | uploadErr m =>
      simp only [processFileUpload, hb, List.map_map]
      refine List.map_congr_left fun a _ => ?_
      by_cases hid : a.id = uf.id
      · have h1 : setError uf.id m a
            = { a with status := UploadStatus.error, error := some m } := by
          simp [setError, hid]
        simp [Function.comp, h1, hid, hni, hb, finalize]
      · have h1 : setError uf.id m a = a := by simp [setError, hid]
        simp [Function.comp, h1, hid]
    | insertErr m =>
      simp only [processFileUpload, hb, List.map_map]
      refine List.map_congr_left fun a _ => ?_
      by_cases hid : a.id = uf.id
      · have h1 : setError uf.id m a
            = { a with status := UploadStatus.error, error := some m } := by
          simp [setError, hid]
        simp [Function.comp, h1, hid, hni, hb, finalize]
      · have h1 : setError uf.id m a = a := by simp [setError, hid]
        simp [Function.comp, h1, hid]

lemma runQueue_calls (backend : String → UploadOutcome) (todo q : List UploadableFile) :
    (runQueue backend q todo).calls = todo.flatMap fun t => callsFor (backend t.id) t.id := by
  induction todo generalizing q with
  | nil => simp [runQueue]
  | cons uf rest ih =>
    cases hb : backend uf.id <;> simp [runQueue, processFileUpload, hb, ih]

lemma callsFor_uploadIds (o : UploadOutcome) (i : String) :
    (callsFor o i).filterMap uploadCallId = [i] := by
  cases o <;> rfl

lemma flatMap_upload_ids (backend : String → UploadOutcome) (todo : List UploadableFile) :
    (todo.flatMap fun t => callsFor (backend t.id) t.id).filterMap uploadCallId
      = todo.map fun t => t.id := by
  induction todo with
  | nil => rfl
  | cons uf rest ih =>
    simp only [List.flatMap_cons, List.filterMap_append, callsFor_uploadIds, ih, List.map_cons]
    rfl

lemma handleUploadAll_calls (backend : String → UploadOutcome) (a : String)
    (q : List UploadableFile) :
    (handleUploadAll backend (some a) q).calls
      = (q.filter fun f => decide (f.status = UploadStatus.queued)).flatMap
          fun t => callsFor (backend t.id) t.id := by
  unfold handleUploadAll
  by_cases he : (q.filter fun f => decide (f.status = UploadStatus.queued)).isEmpty
  · rw [List.isEmpty_iff] at he
    simp [he]
  · simp only [he, if_false]
    exact runQueue_calls backend _ _

lemma handleUploadAll_queue (backend : String → UploadOutcome) (a : String)
    (q : List UploadableFile) (hn : (q.map fun f => f.id).Nodup) :
    (handleUploadAll backend (some a) q).queue
      = q.map fun f =>
          if f.status = UploadStatus.queued then finalize (backend f.id) f else f := by
  unfold handleUploadAll
  by_cases he : (q.filter fun f => decide (f.status = UploadStatus.queued)).isEmpty
  · rw [List.isEmpty_iff] at he
    simp only [he, List.isEmpty_nil, if_true]
    have : ∀ f ∈ q, (if f.status = UploadStatus.queued
        then finalize (backend f.id) f else f) = f := by
      intro f hf
      have := List.filter_eq_nil_iff.mp he f hf
      simp at this
      simp [this]
    rw [List.map_congr_left this, List.map_id' q]
  · simp only [he, if_false]
    have hnd : ((q.filter fun f => decide (f.status = UploadStatus.queued)).map
        fun f => f.id).Nodup :=
      ((List.filter_sublist q).map (f := fun f => f.id)).nodup hn
    rw [runQueue_queue backend _ _ hnd, List.map_map]
    refine List.map_congr_left fun a' ha' => ?_
    by_cases hq : a'.status = UploadStatus.queued
    · have hm : markUploadingFn a' = { a' with status := UploadStatus.uploading } := by
        simp [markUploadingFn, hq]
      have hmem : a'.id ∈ (q.filter fun f => decide (f.status = UploadStatus.queued)).map
          fun t => t.id :=
        List.mem_map_of_mem _ (List.mem_filter.mpr ⟨ha', by simp [hq]⟩)
      simp only [Function.comp, hm, hmem, if_true, hq]
      cases backend a'.id <;> rfl
    · have hm : markUploadingFn a' = a' := by simp [markUploadingFn, hq]
      have hmem : a'.id ∉ (q.filter fun f => decide (f.status = UploadStatus.queued)).map
          fun t => t.id := by
        intro hmem
        obtain ⟨t, ht, htid⟩ := List.mem_map.mp hmem
        obtain ⟨htq, htst⟩ := List.mem_filter.mp ht
        have : t = a' := List.inj_on_of_nodup_map hn htq ha' htid
        subst this
        simp at htst
        exact hq htst
      simp [Function.comp, hm, hmem, hq]

/-- C3: a run of handleUploadAll with an album id uploads exactly the entries
that were queued at its start (one storage upload per such entry, in queue
order); afterwards the queue is the original one with each formerly queued
entry finalized by its backend outcome, so a fully successful entry has
status success and the delayed cleanup then removes it, while a failed entry
stays in the queue with status error and the failure message; and when no
entry is queued, no SDK call is made and one info toast is shown. -/
theorem c3_upload_all (backend : String → UploadOutcome) (a : String)
    (q : List UploadableFile) (hn : (q.map fun f => f.id).Nodup) :
    ((handleUploadAll backend (some a) q).calls.filterMap uploadCallId
        = (q.filter fun f => decide (f.status = UploadStatus.queued)).map fun f => f.id)
    ∧ ((q.filter fun f => decide (f.status = UploadStatus.queued)) = [] →
        (handleUploadAll backend (some a) q).calls = []
        ∧ (handleUploadAll backend (some a) q).toasts
            = [⟨"Tidak ada foto dalam antrean.", ToastType.info⟩]
        ∧ (handleUploadAll backend (some a) q).queueAfterTimeout = q)
    ∧ ((handleUploadAll backend (some a) q).queue
        = q.map fun f =>
            if f.status = UploadStatus.queued then finalize (backend f.id) f else f)
    ∧ ((q.filter fun f => decide (f.status = UploadStatus.queued)) ≠ [] →
        (handleUploadAll backend (some a) q).queueAfterTimeout
          = (handleUploadAll backend (some a) q).queue.filter
              fun f => decide (f.status ≠ UploadStatus.success))
    ∧ (∀ f ∈ q, f.status = UploadStatus.queued →
        (backend f.id = UploadOutcome.ok →
          (∃ e ∈ (handleUploadAll backend (some a) q).queue,
              e.id = f.id ∧ e.status = UploadStatus.success)
          ∧ ∀ e ∈ (handleUploadAll backend (some a) q).queueAfterTimeout, e.id ≠ f.id)
        ∧ (∀ m,
            backend f.id = UploadOutcome.uploadErr m ∨ backend f.id = UploadOutcome.insertErr m →
          ∃ e ∈ (handleUploadAll backend (some a) q).queueAfterTimeout,
            e.id = f.id ∧ e.status = UploadStatus.error ∧ e.error = some m)) := by
  have hqueue := handleUploadAll_queue backend a q hn
  have hfilter : ∀ f ∈ q, f.status = UploadStatus.queued →
      (q.filter fun f => decide (f.status = UploadStatus.queued)) ≠ [] := by
    intro f hf hq
    exact List.ne_nil_of_mem (List.mem_filter.mpr ⟨hf, by simp [hq]⟩)
  have hafter : (q.filter fun f => decide (f.status = UploadStatus.queued)) ≠ [] →
      (handleUploadAll backend (some a) q).queueAfterTimeout
        = (handleUploadAll backend (some a) q).queue.filter
            fun f => decide (f.status ≠ UploadStatus.success) := by
    intro hne
    unfold handleUploadAll
    have he : (q.filter fun f => decide (f.status = UploadStatus.queued)).isEmpty = false := by
      rw [Bool.eq_false_iff]
      intro hcon
      exact hne (List.isEmpty_iff.mp hcon)
    simp [he]
  refine ⟨?_, ?_, hqueue, hafter, ?_⟩
  · rw [handleUploadAll_calls, flatMap_upload_ids]
  · intro he
    unfold handleUploadAll
    simp [he]
  · intro f hf hq
    constructor
    · intro hb
      constructor
      · refine ⟨finalize (backend f.id) f, ?_, ?_, ?_⟩
        · rw [hqueue]
          exact List.mem_map.mpr ⟨f, hf, by simp [hq]⟩
        · exact finalize_id _ f
        · simp [hb, finalize]
      · intro e he hid
        rw [hafter (hfilter f hf hq)] at he
        obtain ⟨heq, hest⟩ := List.mem_filter.mp he
        rw [hqueue] at heq
        obtain ⟨b, hb', rfl⟩ := List.mem_map.mp heq
        have hbid : b.id = f.id := by
          by_cases hbq : b.status = UploadStatus.queued
          · simpa [hbq, finalize_id] using hid
          · simpa [hbq] using hid
        have : b = f := List.inj_on_of_nodup_map hn hb' hf hbid
        subst this
        simp [hq, hb, finalize] at hest
    · intro m hb
      refine ⟨finalize (backend f.id) f, ?_, finalize_id _ f, ?_⟩
      · rw [hafter (hfilter f hf hq), List.mem_filter]
        constructor
        · rw [hqueue]
          exact List.mem_map.mpr ⟨f, hf, by simp [hq]⟩
        · rcases hb with hb | hb <;> simp [hb, finalize]
      · rcases hb with hb | hb <;> simp [hb, finalize]

/-- Witness for C3 at a one-entry queued list with a successful backend. -/
theorem c3_upload_all_witness :
    (handleUploadAll (fun _ => UploadOutcome.ok) (some "al")
        [⟨"i1", ⟨"a.png", "image/png", 100⟩, "u1", UploadStatus.queued, none⟩]).calls.filterMap
          uploadCallId
      = ([(⟨"i1", ⟨"a.png", "image/png", 100⟩, "u1", UploadStatus.queued,
            none⟩ : UploadableFile)].filter
          fun f => decide (f.status = UploadStatus.queued)).map fun f => f.id :=
  (c3_upload_all (fun _ => UploadOutcome.ok) "al" _ (by decide)).1

/-! ## Claim C5: SDK calls per operation (corrected) -/

/-- C5 as stated is false on the code: uploading a single queued photo with a
fully successful backend makes three SDK calls (storage upload, public-URL
lookup, photo-row insert), not one call for the photo. -/
theorem c5_counterexample :
    (handleUploadAll (fun _ => UploadOutcome.ok) (some "al")
        [⟨"i1", ⟨"a.png", "image/png", 100⟩, "u1", UploadStatus.queued, none⟩]).calls.length = 3
    ∧ ¬ (handleUploadAll (fun _ => UploadOutcome.ok) (some "al")
        [⟨"i1", ⟨"a.png", "image/png", 100⟩, "u1",
          UploadStatus.queued, none⟩]).calls.length = 1 := by
  decide

/-- C5 amended: auth sign-in, album create and the total-photo count
aggregation are one SDK call each; a handleUploadAll run makes one
storage-upload call per entry that was queued at its start plus, whenever
that upload succeeds, one public-URL lookup and one photo-row insert for that
entry (three calls); a confirmed album delete with a successful photo-list
fetch makes that one select, at most one batched storage removal, and one
album-row delete. -/
theorem c5_amended :
    (∀ o, (handleLogin o).2 = [(SdkCall.authSignIn, o)])
    ∧ (∀ title d captionIds ao co, ¬ title = "" →
        (handleAlbumSave true title d captionIds ao co).2 = [(SdkCall.albumsInsert, ao)])
    ∧ (∀ ro co, ((fetchAlbumsAndStats ro co).filter
        fun c => decide (c.1 = SdkCall.photosCount)).length = 1)
    ∧ (∀ backend a q, (handleUploadAll backend (some a) q).calls
        = (q.filter fun f => decide (f.status = UploadStatus.queued)).flatMap
            fun t => callsFor (backend t.id) t.id)
    ∧ (∀ i m, (callsFor UploadOutcome.ok i).length = 3
        ∧ (callsFor (UploadOutcome.uploadErr m) i).length = 1
        ∧ (callsFor (UploadOutcome.insertErr m) i).length = 3)
    ∧ (∀ albumId albumTitle photos so dbo,
        (handleDelete true albumId albumTitle (Except.ok photos) so dbo).calls
          = ((SdkCall.photosSelect albumId, none)
              :: (if derivedPaths photos ≠ [] then
                    [(SdkCall.storageRemove (derivedPaths photos), so)] else []))
            ++ [(SdkCall.albumsDelete albumId, dbo)]) := by
  refine ⟨fun o => ?_, fun title d cids ao co ht => ?_, fun ro co => rfl,
    fun backend a q => handleUploadAll_calls backend a q,
    fun i m => ⟨rfl, rfl, rfl⟩,
    fun albumId albumTitle photos so dbo => handleDelete_calls_ok albumId albumTitle photos so dbo⟩
  · cases o <;> rfl
  · cases ao <;> simp [handleAlbumSave, ht]

/-- Witness for C5 amended at a concrete successful login. -/
theorem c5_amended_witness : (handleLogin none).2 = [(SdkCall.authSignIn, none)] :=
  c5_amended.1 none

/-! ## Claim C6: success and error toasts (corrected) -/

/-- C6 as stated is false on the code: a confirmed album delete whose photo
list fetch succeeds, whose storage removal errors and whose album-row delete
succeeds still adds a success toast although one of its backend calls
returned an error. -/
theorem c6_counterexample :
    ¬ ((hasToast (handleDelete true "a1" "T"
          (Except.ok [⟨"p1", "a1", "h/gallery/f.jpg", none, "t"⟩]) (some "boom") none).toasts
            ToastType.success = true)
        ↔ (callsOk (handleDelete true "a1" "T"
          (Except.ok [⟨"p1", "a1", "h/gallery/f.jpg", none, "t"⟩])
            (some "boom") none).calls = true)) := by
  decide

lemma saveCond_iff (ao : Option String) (cids : List String) (co : String → Option String) :
    (ao.isSome || cids.any fun cid => (co cid).isSome) = true
      ↔ ¬ (ao = none ∧ ∀ cid ∈ cids, co cid = none) := by
  simp only [Bool.or_eq_true, List.any_eq_true, Option.isSome_iff_ne_none]
  constructor
  · rintro (h | ⟨cid, hcid, hne⟩) hand
    · exact h hand.1
    · exact hne (hand.2 cid hcid)
  · intro h
    by_contra hcon
    push_neg at hcon
    exact h ⟨hcon.1, fun cid hcid => hcon.2 cid hcid⟩

lemma handleAlbumSave_update (title d : String) (cids : List String) (ao : Option String)
    (co : String → Option String) (ht : ¬ title = "") :
    handleAlbumSave false title d cids ao co
      = (if (ao.isSome || cids.any fun cid => (co cid).isSome) = true
          then [⟨"Gagal menyimpan perubahan.", ToastType.error⟩]
          else [⟨"Perubahan berhasil disimpan.", ToastType.success⟩],
         (SdkCall.albumsUpdateMeta, ao) :: cids.map fun cid => (SdkCall.photosUpdate cid, co cid)) := by
  by_cases hb : (ao.isSome || cids.any fun cid => (co cid).isSome) = true <;>
    simp [handleAlbumSave, ht, hb]

lemma saveCallsOk (ao : Option String) (cids : List String) (co : String → Option String) :
    callsOk ((SdkCall.albumsUpdateMeta, ao)
        :: cids.map fun cid => (SdkCall.photosUpdate cid, co cid)) = true
      ↔ (ao = none ∧ ∀ cid ∈ cids, co cid = none) := by
  simp [callsOk, List.all_map, Function.comp]

/-- C6 amended: for login, logout, album create and update, and set cover,
the run adds a success toast exactly when every backend call of the run
returns without error and an error toast exactly when some backend call
errors.  The two exceptions: a confirmed photo delete determines its toasts
by the storage removal and the photo-row delete only (the cover-reset
update's outcome is ignored), and a confirmed album delete adds its success
toast exactly when the album-row delete succeeds, even if the storage
removal failed (which also adds an error toast); runs that make no backend
call (empty title, declined confirm, invalid photo URL) are out of scope. -/
theorem c6_amended :
    (∀ o, (hasToast (handleLogin o).1 ToastType.success = true ↔ callsOk (handleLogin o).2 = true)
      ∧ (hasToast (handleLogin o).1 ToastType.error = true ↔ ¬ callsOk (handleLogin o).2 = true))
    ∧ (∀ o, (hasToast (handleLogout o).1 ToastType.success = true
          ↔ callsOk (handleLogout o).2 = true)
      ∧ (hasToast (handleLogout o).1 ToastType.error = true
          ↔ ¬ callsOk (handleLogout o).2 = true))
    ∧ (∀ title d cids ao co, ¬ title = "" →
        (hasToast (handleAlbumSave true title d cids ao co).1 ToastType.success = true
          ↔ callsOk (handleAlbumSave true title d cids ao co).2 = true)
        ∧ (hasToast (handleAlbumSave true title d cids ao co).1 ToastType.error = true
          ↔ ¬ callsOk (handleAlbumSave true title d cids ao co).2 = true))
    ∧ (∀ title d cids ao co, ¬ title = "" →
        (hasToast (handleAlbumSave false title d cids ao co).1 ToastType.success = true
          ↔ (ao = none ∧ ∀ cid ∈ cids, co cid = none))
        ∧ (hasToast (handleAlbumSave false title d cids ao co).1 ToastType.error = true
          ↔ ¬ (ao = none ∧ ∀ cid ∈ cids, co cid = none))
        ∧ (callsOk (handleAlbumSave false title d cids ao co).2 = true
          ↔ (ao = none ∧ ∀ cid ∈ cids, co cid = none)))
    ∧ (∀ album url o, (hasToast (handleSetCover album url o).2.1 ToastType.success = true ↔ o = none)
        ∧ (hasToast (handleSetCover album url o).2.1 ToastType.error = true ↔ ¬ o = none)
        ∧ (callsOk (handleSetCover album url o).2.2 = true ↔ o = none))
    ∧ (∀ cover photo so dbo cvo, ¬ lastGallerySegment photo.image_url = "" →
        (hasToast (handleDeletePhoto true cover photo so dbo cvo).toasts ToastType.success = true
          ↔ (so = none ∧ dbo = none))
        ∧ (hasToast (handleDeletePhoto true cover photo so dbo cvo).toasts ToastType.error = true
          ↔ ¬ (so = none ∧ dbo = none)))
    ∧ (∀ aid ti m so dbo,
        hasToast (handleDelete true aid ti (Except.error m) so dbo).toasts ToastType.error = true
        ∧ hasToast (handleDelete true aid ti (Except.error m) so dbo).toasts
            ToastType.success = false)
    ∧ (∀ aid ti photos so dbo,
        (hasToast (handleDelete true aid ti (Except.ok photos) so dbo).toasts
            ToastType.success = true ↔ dbo = none)
        ∧ (hasToast (handleDelete true aid ti (Except.ok photos) so dbo).toasts
            ToastType.error = true
          ↔ ((derivedPaths photos ≠ [] ∧ ¬ so = none) ∨ ¬ dbo = none))) := by
  refine ⟨fun o => ?_, fun o => ?_, fun title d cids ao co ht => ?_,
    fun title d cids ao co ht => ?_, fun album url o => ?_,
    fun cover photo so dbo cvo hp => ?_, fun aid ti m so dbo => ?_,
    fun aid ti photos so dbo => ?_⟩
  · cases o <;> simp [handleLogin, hasToast, callsOk]
  · cases o <;> simp [handleLogout, hasToast, callsOk]
  · cases ao <;> simp [handleAlbumSave, ht, hasToast, callsOk]
  · by_cases hb : (ao.isSome || cids.any fun cid => (co cid).isSome) = true
    · have hcond := (saveCond_iff ao cids co).mp hb
      rw [handleAlbumSave_update title d cids ao co ht]
      exact ⟨iff_of_false (by simp [hasToast, hb]) hcond,
        iff_of_true (by simp [hasToast, hb]) hcond, saveCallsOk ao cids co⟩
    · have hcond : (ao = none ∧ ∀ cid ∈ cids, co cid = none) := by
        by_contra hcon
        exact hb ((saveCond_iff ao cids co).mpr hcon)
      rw [handleAlbumSave_update title d cids ao co ht]
      exact ⟨iff_of_true (by simp [hasToast, hb]) hcond,
        iff_of_false (by simp [hasToast, hb]) (not_not_intro hcond), saveCallsOk ao cids co⟩
  · cases o <;> simp [handleSetCover, hasToast, callsOk]
  · cases so <;> cases dbo <;>
      (by_cases hc : cover = some photo.image_url <;> simp [handleDeletePhoto, hp, hc, hasToast])
  · cases so <;> cases dbo <;> simp [handleDelete, hasToast]
  · cases photos with
    | nil => cases so <;> cases dbo <;> simp [handleDelete, derivedPaths, hasToast]
    | cons p ps =>
      by_cases hd : derivedPaths (p :: ps) = []
      · cases so <;> cases dbo <;> simp [handleDelete, hd, hasToast]
      · have hl := List.length_pos.mpr hd
        cases so <;> cases dbo <;> simp [handleDelete, hd, hl, hasToast]

/-- Witness for C6 amended at a concrete successful login. -/
theorem c6_amended_witness : hasToast (handleLogin none).1 ToastType.success = true :=
  ((c6_amended.1 none).1).mpr (by decide)

/-! ## Claim C2: upload-queue status invariants -/

lemma setSuccess_id (id0 : String) (f : UploadableFile) : (setSuccess id0 f).id = f.id := by
  unfold setSuccess; split <;> rfl

lemma setError_id (id0 msg : String) (f : UploadableFile) : (setError id0 msg f).id = f.id := by
  unfold setError; split <;> rfl

/-- Small-step relation on the upload-queue state, one constructor per
setFilesToUpload call site of the second document: handleFileSelect (line
786), removeFileFromQueue (line 791), and the three updaters plus the delayed
cleanup inside handleUploadAll (lines 810, 827, 831, 844).  The guards state
exactly what the call sites establish: ids produced by crypto.randomUUID are
pairwise distinct and fresh for the current queue, and an entry is marked
success or error only after handleUploadAll set it to uploading (nothing can
intervene: the remove button is disabled for an uploading entry and the
upload button is disabled while a run is active). -/
inductive QStep : List UploadableFile → List UploadableFile → Prop where
  | select (fresh : Nat → String × String) (files : List File) (q : List UploadableFile)
      (hfresh : (((List.range files.length).map fun j => (fresh j).1).Nodup)
        ∧ ∀ j, j < files.length → (fresh j).1 ∉ q.map fun f => f.id) :
      QStep q (handleFileSelect fresh files q).1
  | remove (id0 : String) (q : List UploadableFile) :
      QStep q (removeFileFromQueue id0 q).1
  | startUpload (q : List UploadableFile) (h : ∃ f ∈ q, f.status = UploadStatus.queued) :
      QStep q (q.map markUploadingFn)
  | finishSuccess (id0 : String) (q : List UploadableFile)
      (h : ∀ f ∈ q, f.id = id0 → f.status = UploadStatus.uploading) :
      QStep q (q.map (setSuccess id0))
  | finishError (id0 msg : String) (q : List UploadableFile)
      (h : ∀ f ∈ q, f.id = id0 → f.status = UploadStatus.uploading) :
      QStep q (q.map (setError id0 msg))
  | clearSuccess (q : List UploadableFile) :
      QStep q (q.filter fun f => decide (f.status ≠ UploadStatus.success))

/-- Queue states reachable from the initial empty queue. -/
def QReachable (q : List UploadableFile) : Prop :=
  Relation.ReflTransGen QStep [] q

/-- The status transitions the spec allows: stay put, queued to uploading,
or uploading to success or error. -/
def allowedTransition (s s' : UploadStatus) : Prop :=
  s' = s ∨ (s = UploadStatus.queued ∧ s' = UploadStatus.uploading)
    ∨ (s = UploadStatus.uploading ∧ s' = UploadStatus.success)
    ∨ (s = UploadStatus.uploading ∧ s' = UploadStatus.error)

instance (s s' : UploadStatus) : Decidable (allowedTransition s s') := by
  unfold allowedTransition; infer_instance

lemma handleFileSelectOne_some_id (fid url : String) (f : File) (e : UploadableFile)
    (h : (handleFileSelectOne fid url f).1 = some e) : e.id = fid := by
  unfold handleFileSelectOne at h
  split_ifs at h
  all_goals simp_all
  exact h.symm ▸ rfl

lemma processFiles_ids_sublist (fresh : Nat → String × String) (j : Nat) (files : List File) :
    ((processFiles fresh j files).1.map fun f => f.id).Sublist
      ((List.range' j files.length).map fun i => (fresh i).1) := by
  induction files generalizing j with
  | nil => simp [processFiles]
  | cons f fs ih =>
    simp only [processFiles, List.length_cons, List.range'_succ, List.map_cons, List.map_append]
    cases ho : (handleFileSelectOne (fresh j).1 (fresh j).2 f).1 with
    | none => simpa [ho] using (ih (j + 1)).cons _
    | some e =>
      have hid := handleFileSelectOne_some_id (fresh j).1 (fresh j).2 f e ho
      simpa [ho, hid] using (ih (j + 1)).cons₂ (fresh j).1

lemma processFiles_id_mem (fresh : Nat → String × String) (j : Nat) (files : List File) :
    ∀ e ∈ (processFiles fresh j files).1,
      ∃ i, j ≤ i ∧ i < j + files.length ∧ e.id = (fresh i).1 := by
  intro e he
  have hmem : e.id ∈ (List.range' j files.length).map fun i => (fresh i).1 :=
    (processFiles_ids_sublist fresh j files).subset (List.mem_map_of_mem _ he)
  obtain ⟨i, hi, heq⟩ := List.mem_map.mp hmem
  rw [List.mem_range'_1] at hi
  exact ⟨i, hi.1, hi.2, heq.symm⟩

lemma processFiles_status (fresh : Nat → String × String) (j : Nat) (files : List File) :
    ∀ e ∈ (processFiles fresh j files).1, e.status = UploadStatus.queued := by
  intro e he
  have hm : (e.file, e.status, e.error)
      ∈ (processFiles fresh j files).1.map fun e => (e.file, e.status, e.error) :=
    List.mem_map_of_mem _ he
  rw [processFiles_entries] at hm
  obtain ⟨f, _, heq⟩ := List.mem_map.mp hm
  simp only [Prod.mk.injEq] at heq
  exact heq.2.1.symm

lemma mem_id_unique {q : List UploadableFile} (hn : (q.map fun f => f.id).Nodup)
    {a b : UploadableFile} (ha : a ∈ q) (hb : b ∈ q) (hid : a.id = b.id) : a = b :=
  List.inj_on_of_nodup_map hn ha hb hid

lemma QStep_nodup {q q' : List UploadableFile} (h : QStep q q')
    (hn : (q.map fun f => f.id).Nodup) : (q'.map fun f => f.id).Nodup := by
  cases h with
  | select fresh files q hfresh =>
    obtain ⟨hfn, hdisj⟩ := hfresh
    show ((q ++ (processFiles fresh 0 files).1).map fun f => f.id).Nodup
    rw [List.map_append, List.nodup_append]
    refine ⟨hn, ?_, ?_⟩
    · refine (processFiles_ids_sublist fresh 0 files).nodup ?_
      rw [← List.range_eq_range']
      exact hfn
    · intro x hx hx'
      obtain ⟨e, he, rfl⟩ := List.mem_map.mp hx'
      obtain ⟨i, _, hilen, heq⟩ := processFiles_id_mem fresh 0 files e he
      rw [heq] at hx
      exact hdisj i (by omega) hx
  | remove id0 q => exact ((List.filter_sublist q).map _).nodup hn
  | startUpload q h =>
    rw [List.map_map, show ((fun f => f.id) ∘ markUploadingFn) = fun f : UploadableFile => f.id
      from funext fun f => markUploadingFn_id f]
    exact hn
  | finishSuccess id0 q h =>
    rw [List.map_map, show ((fun f => f.id) ∘ setSuccess id0) = fun f : UploadableFile => f.id
      from funext fun f => setSuccess_id id0 f]
    exact hn
  | finishError id0 msg q h =>
    rw [List.map_map, show ((fun f => f.id) ∘ setError id0 msg) = fun f : UploadableFile => f.id
      from funext fun f => setError_id id0 msg f]
    exact hn
  | clearSuccess q => exact ((List.filter_sublist q).map _).nodup hn

lemma QReachable_nodup (q : List UploadableFile) (h : QReachable q) :
    (q.map fun f => f.id).Nodup := by
  induction h with
  | refl => simp
  | tail _ hstep ih => exact QStep_nodup hstep ih

/-- C2: along every step taken from a reachable upload-queue state, each
entry's status is one of queued, uploading, success, error; entries that are
new in the queue carry status queued; and an entry present before and after
the step changes its status only along queued to uploading, uploading to
success, or uploading to error. -/
theorem c2_queue_invariants (q q' : List UploadableFile)
    (hr : QReachable q) (hs : QStep q q') :
    (∀ e ∈ q', e.status = UploadStatus.queued ∨ e.status = UploadStatus.uploading
      ∨ e.status = UploadStatus.success ∨ e.status = UploadStatus.error)
    ∧ (∀ e ∈ q', (∀ b ∈ q, ¬ b.id = e.id) → e.status = UploadStatus.queued)
    ∧ (∀ a ∈ q, ∀ e ∈ q', a.id = e.id → allowedTransition a.status e.status) := by
  have hn := QReachable_nodup q hr
  refine ⟨?_, ?_, ?_⟩
  · intro e _
    cases e.status <;> simp
  · cases hs with
    | select fresh files q hfresh =>
      intro e he hnot
      have he' : e ∈ q ++ (processFiles fresh 0 files).1 := he
      rcases List.mem_append.mp he' with hmem | hmem
      · exact absurd rfl (hnot e hmem)
      · exact processFiles_status fresh 0 files e hmem
    | remove id0 q =>
      intro e he hnot
      exact absurd rfl (hnot e (List.mem_filter.mp he).1)
    | startUpload q h =>
      intro e he hnot
      obtain ⟨b, hb, rfl⟩ := List.mem_map.mp he
      exact absurd (markUploadingFn_id b).symm (hnot b hb)
    | finishSuccess id0 q h =>
      intro e he hnot
      obtain ⟨b, hb, rfl⟩ := List.mem_map.mp he
      exact absurd (setSuccess_id id0 b).symm (hnot b hb)
    | finishError id0 msg q h =>
      intro e he hnot
      obtain ⟨b, hb, rfl⟩ := List.mem_map.mp he
      exact absurd (setError_id id0 msg b).symm (hnot b hb)
    | clearSuccess q =>
      intro e he hnot
      exact absurd rfl (hnot e (List.mem_filter.mp he).1)
  · cases hs with
    | select fresh files q hfresh =>
      intro a ha e he hid
      have he' : e ∈ q ++ (processFiles fresh 0 files).1 := he
      rcases List.mem_append.mp he' with hmem | hmem
      · have : a = e := mem_id_unique hn ha hmem hid
        subst this
        exact Or.inl rfl
      · obtain ⟨i, _, hilen, heq⟩ := processFiles_id_mem fresh 0 files e hmem
        have hin : (fresh i).1 ∈ q.map fun f => f.id := by
          rw [← heq, ← hid]
          exact List.mem_map_of_mem _ ha
        exact absurd hin (hfresh.2 i (by omega))
    | remove id0 q =>
      intro a ha e he hid
      have : a = e := mem_id_unique hn ha (List.mem_filter.mp he).1 hid
      subst this
      exact Or.inl rfl
    | startUpload q h =>
      intro a ha e he hid
      obtain ⟨b, hb, rfl⟩ := List.mem_map.mp he
      have hab : a = b := mem_id_unique hn ha hb (by rw [hid, markUploadingFn_id])
      subst hab
      unfold allowedTransition markUploadingFn
      by_cases hq : a.status = UploadStatus.queued
      · rw [if_pos hq]
        exact Or.inr (Or.inl ⟨hq, rfl⟩)
      · rw [if_neg hq]
        exact Or.inl rfl
    | finishSuccess id0 q h =>
      intro a ha e he hid
      obtain ⟨b, hb, rfl⟩ := List.mem_map.mp he
      have hab : a = b := mem_id_unique hn ha hb (by rw [hid, setSuccess_id])
      subst hab
      unfold allowedTransition setSuccess
      by_cases hq : a.id = id0
      · rw [if_pos hq]
        exact Or.inr (Or.inr (Or.inl ⟨h a ha hq, rfl⟩))
      · rw [if_neg hq]
        exact Or.inl rfl
    | finishError id0 msg q h =>
      intro a ha e he hid
      obtain ⟨b, hb, rfl⟩ := List.mem_map.mp he
      have hab : a = b := mem_id_unique hn ha hb (by rw [hid, setError_id])
      subst hab
      unfold allowedTransition setError
      by_cases hq : a.id = id0
      · rw [if_pos hq]
        exact Or.inr (Or.inr (Or.inr ⟨h a ha hq, rfl⟩))
      · rw [if_neg hq]
        exact Or.inl rfl
    | clearSuccess q =>
      intro a ha e he hid
      have : a = e := mem_id_unique hn ha (List.mem_filter.mp he).1 hid
      subst this
      exact Or.inl rfl

/-- Witness for C2: applying the invariant theorem to the step that enqueues
one valid file into the empty (reachable) queue, at the concrete new entry. -/
theorem c2_queue_invariants_witness :
    (⟨"id0", ⟨"a.png", "image/png", 100⟩, "url0", UploadStatus.queued,
        none⟩ : UploadableFile).status = UploadStatus.queued
      ∨ (⟨"id0", ⟨"a.png", "image/png", 100⟩, "url0", UploadStatus.queued,
        none⟩ : UploadableFile).status = UploadStatus.uploading
      ∨ (⟨"id0", ⟨"a.png", "image/png", 100⟩, "url0", UploadStatus.queued,
        none⟩ : UploadableFile).status = UploadStatus.success
      ∨ (⟨"id0", ⟨"a.png", "image/png", 100⟩, "url0", UploadStatus.queued,
        none⟩ : UploadableFile).status = UploadStatus.error :=
  (c2_queue_invariants [] _ Relation.ReflTransGen.refl
    (QStep.select (fun _ => ("id0", "url0")) [⟨"a.png", "image/png", 100⟩] []
      ⟨by decide, by decide⟩)).1
    ⟨"id0", ⟨"a.png", "image/png", 100⟩, "url0", UploadStatus.queued, none⟩ (by decide)

end Galeri
